import Mathlib

/-!
# Intelligent Recipe Generator — verification development

Shallow embedding of the repository's data model and operations:

* the server-side image-to-ingredients pipeline (ingredient resolver cascade,
  fallback selection, recipe matcher, filter search).  The backend sources
  (`backend/app/main.py`, `model.py`, `image_processing.py`, `ocr_utils.py`)
  are not present in the source tree — only the README, the frontend callers
  and the deployment scripts are — so those parts are modelled from the
  specification, as marked on each definition.
* the Redux state slices (`userSlice`, `ingredientSlice`) of the React
  frontend, which are present in the source tree and embedded directly.

Conventions: JavaScript/Python floats are modelled as `ℚ`; a JS value that
may be `undefined`/`null` is modelled as an `Option`; JS arrays are `List`s.
-/

/-! ## Ingredient resolver data model (spec §3, §4.3) -/

/-- The five matching tiers of the ingredient-resolution cascade. -/
inductive Tier where
  | Variation
  | Direct
  | Fuzzy
  | Keyword
  | Fallback
deriving DecidableEq, Repr

/-- An ingredient detected in an image, with its confidence and the tier
that produced it. -/
structure IngredientMatch where
  canonical_name : String
  confidence : ℚ
  tier : Tier
  source_text : String
deriving DecidableEq, Repr

/-- Modelled from the spec: the static resolver tables
(`IngredientVariationTable` and `IngredientDatabase`, §3) that the missing
backend (`backend/app/model.py`) loads at startup.  `variations` maps a
surface form to a canonical name; `ingredients` pairs each canonical name
with its keyword set; `defaults` is the pool the Fallback tier selects from. -/
structure ResolverDB where
  variations : List (String × String)
  ingredients : List (String × List String)
  defaults : List String
deriving Repr

/-- Modelled from the spec: Tier 1, exact lookup of the token in the
variation table. -/
def variationMatch (db : ResolverDB) (tok : String) : Option String :=
  (db.variations.find? (fun p => p.1 == tok)).map (fun p => p.2)

/-- Modelled from the spec: Tier 2, exact match of the (already normalized)
token against a canonical ingredient name. -/
def directMatch (db : ResolverDB) (tok : String) : Option String :=
  (db.ingredients.find? (fun p => p.1 == tok)).map (fun p => p.1)

/-- One string is a contiguous substring of the other. -/
def substringRelated (a b : String) : Bool :=
  decide (a.toList <:+: b.toList) || decide (b.toList <:+: a.toList)

/-- Modelled from the spec: Tier 3, partial/substring matching against
canonical names (the spec's small-edit-distance and glyph-confusion
variants are elided; the claims depend only on this tier's position in the
cascade and its confidence). -/
def fuzzyMatch (db : ResolverDB) (tok : String) : Option String :=
  (db.ingredients.find? (fun p => substringRelated p.1 tok)).map (fun p => p.1)

/-- Modelled from the spec: Tier 4, the token appears in a canonical
ingredient's associated keyword set. -/
def keywordMatch (db : ResolverDB) (tok : String) : Option String :=
  (db.ingredients.find? (fun p => p.2.contains tok)).map (fun p => p.1)

/-- The fixed confidence of each tier (spec §4.3; for Fallback this is the
lower end of its 0.60–0.75 band, the per-image value is
`fallbackConfidence`).  Stated via `mkRat` so the values are computable. -/
def tierConfidence : Tier → ℚ
  | Tier.Variation => mkRat 95 100
  | Tier.Direct => mkRat 90 100
  | Tier.Fuzzy => mkRat 75 100
  | Tier.Keyword => mkRat 80 100
  | Tier.Fallback => mkRat 60 100

/-- Modelled from the spec: the per-token five-tier cascade — the tiers are
attempted in the fixed order Variation, Direct, Fuzzy, Keyword, and the
first tier that succeeds determines the token's match and confidence
(Fallback is image-level, not per-token, see `pipeline`). -/
def resolveToken (db : ResolverDB) (tok : String) : Option IngredientMatch :=
  match variationMatch db tok with
  | some c => some ⟨c, tierConfidence Tier.Variation, Tier.Variation, tok⟩
  | none =>
    match directMatch db tok with
    | some c => some ⟨c, tierConfidence Tier.Direct, Tier.Direct, tok⟩
    | none =>
      match fuzzyMatch db tok with
      | some c => some ⟨c, tierConfidence Tier.Fuzzy, Tier.Fuzzy, tok⟩
      | none =>
        match keywordMatch db tok with
        | some c => some ⟨c, tierConfidence Tier.Keyword, Tier.Keyword, tok⟩
        | none => none

/-- Modelled from the spec: merging one match into an accumulated result,
deduplicating by canonical name and keeping the higher-confidence match. -/
def insertMatch : List IngredientMatch → IngredientMatch → List IngredientMatch
  | [], m => [m]
  | x :: xs, m =>
    if x.canonical_name = m.canonical_name then
      (if x.confidence < m.confidence then m else x) :: xs
    else
      x :: insertMatch xs m

/-- Modelled from the spec: left-to-right merge of per-token matches,
deduplicated by canonical ingredient name, retaining the
highest-confidence match for any ingredient matched by several tokens. -/
def mergeMatches (ms : List IngredientMatch) : List IngredientMatch :=
  ms.foldl insertMatch []

/-- Modelled from the spec: resolve a whole normalized token stream —
run the cascade per token and merge the results. -/
def resolveTokens (db : ResolverDB) (toks : List String) : List IngredientMatch :=
  mergeMatches (toks.filterMap (resolveToken db))

/-- A sample resolver database used to exercise the definitions. -/
def sampleDB : ResolverDB :=
  { variations := [("lays", "chips"), ("maggi", "noodles")]
    ingredients :=
      [("chips", ["crisps", "snack"]),
       ("tomato", ["ketchup"]),
       ("noodles", ["ramen", "pasta"]),
       ("onion", [])]
    defaults := ["vegetables", "tomato", "onion"] }

example : resolveToken sampleDB "lays"
    = some ⟨"chips", mkRat 95 100, Tier.Variation, "lays"⟩ := by decide

example : resolveToken sampleDB "chips"
    = some ⟨"chips", mkRat 90 100, Tier.Direct, "chips"⟩ := by decide

example : fuzzyMatch sampleDB "chips" = some "chips" := by decide

example : resolveToken sampleDB "tomat"
    = some ⟨"tomato", mkRat 75 100, Tier.Fuzzy, "tomat"⟩ := by decide

example : resolveToken sampleDB "ramen"
    = some ⟨"noodles", mkRat 80 100, Tier.Keyword, "ramen"⟩ := by decide

example : resolveToken sampleDB "zzz" = none := by decide

example : resolveTokens sampleDB ["lays", "chips"]
    = [⟨"chips", mkRat 95 100, Tier.Variation, "lays"⟩] := by decide

example : tierConfidence Tier.Variation = 95 / 100 := by
  rw [tierConfidence, Rat.mkRat_eq_div]
  norm_num

/-! ## Image pipeline (spec §4.1, §4.3 Fallback, §7) -/

/-- An uploaded image: immutable byte buffer plus declared MIME type
(spec §3 `RawImage`).  Bytes are modelled as naturals below 256. -/
structure RawImage where
  bytes : List Nat
  mime : String
deriving DecidableEq, Repr

/-- The fatal pipeline errors of the spec's §7 taxonomy (the recoverable
conditions `OcrNoText` / `EngineTimeout` degrade internally and never
abort the pipeline). -/
inductive PipelineError where
  | MalformedImage
  | RecipeStoreUnavailable
deriving DecidableEq, Repr

/-- Modelled from the spec: the deterministic hash of the image content
used by the Fallback tier (§4.3 step 5); a simple polynomial rolling hash
of the byte buffer, reduced modulo 2^32. -/
def imageHash (img : RawImage) : Nat :=
  img.bytes.foldl (fun h b => (h * 31 + b) % 4294967296) 7

/-- Modelled from the spec: the default ingredient deterministically
selected by the Fallback tier — the content hash indexes the default
pool. -/
def fallbackName (db : ResolverDB) (img : RawImage) : String :=
  db.defaults.getD (imageHash img % db.defaults.length) "food"

/-- Modelled from the spec: the Fallback-tier confidence, a value in the
band [0.60, 0.75] derived from the content hash (kept in `mkRat` form so
it is computable). -/
def fallbackConfidence (img : RawImage) : ℚ :=
  mkRat ((60 + imageHash img % 16 : ℕ) : ℤ) 100

/-- Modelled from the spec: the single Fallback-tier match produced when
no token of the whole text matches tiers 1–4. -/
def fallbackMatch (db : ResolverDB) (img : RawImage) : IngredientMatch :=
  ⟨fallbackName db img, fallbackConfidence img, Tier.Fallback, ""⟩

/-- Modelled from the spec: the request-scoped pipeline
(`backend/app/main.py` is absent from the source tree).  `decode` stands
for the preprocess→OCR→normalize prefix: it fails (`none`) exactly when
image decoding fails, and otherwise yields the normalized token stream
(empty on the `OcrNoText` condition, which is recoverable).  A decoding
failure aborts the whole pipeline with `MalformedImage` and no partial
results; otherwise the resolver runs, and when no token matched tiers 1–4
the Fallback tier supplies a single match. -/
def pipeline (db : ResolverDB) (decode : RawImage → Option (List String))
    (img : RawImage) : Except PipelineError (List IngredientMatch) :=
  match decode img with
  | none => Except.error PipelineError.MalformedImage
  | some toks =>
    match resolveTokens db toks with
    | [] => Except.ok [fallbackMatch db img]
    | m :: ms => Except.ok (m :: ms)

/-- A decode stub for exercising the pipeline: decoding succeeds on
non-empty byte buffers and finds no text (the blank-image scenario). -/
def blankDecode (img : RawImage) : Option (List String) :=
  if img.bytes.isEmpty then none else some []

example : pipeline sampleDB blankDecode ⟨[], "image/png"⟩
    = Except.error PipelineError.MalformedImage := rfl

example : pipeline sampleDB blankDecode ⟨[255, 255], "image/png"⟩
    = Except.ok [fallbackMatch sampleDB ⟨[255, 255], "image/png"⟩] := rfl

/-! ## Recipe store and matcher (spec §3, §4.4) -/

/-- Per-serving nutrition facts of a recipe (spec §3 `Recipe.nutrition`). -/
structure Nutrition where
  calories : Nat
  protein : Nat
  carbohydrates : Nat
  fat : Nat
  fiber : Nat
  sugar : Nat
  sodium : Nat
deriving DecidableEq, Repr

/-- A recipe of the persistent store (spec §3).  Ingredient entries are
reduced to their canonical names (quantities/units/notes play no role in
matching or filtering); `dietary_tags` carries the dietary-preference
labels the filter search checks. -/
structure Recipe where
  id : Nat
  title : String
  description : String
  cuisine_type : String
  difficulty_level : String
  prep_time : Nat
  cook_time : Nat
  servings : Nat
  ingredients : List String
  dietary_tags : List String
  nutrition : Nutrition
deriving DecidableEq, Repr

/-- A recipe paired with its match score (spec §3 `MatchResult`). -/
structure MatchResult where
  recipe : Recipe
  match_score : ℚ
deriving DecidableEq, Repr

/-- Modelled from the spec: the number of a recipe's required ingredients
present in the input set. -/
def matchCount (input : List String) (r : Recipe) : Nat :=
  (r.ingredients.filter (fun i => input.contains i)).length

/-- Modelled from the spec: `match_score` — set-intersection size divided
by the recipe's ingredient count. -/
def matchScore (input : List String) (r : Recipe) : ℚ :=
  (matchCount input r : ℚ) / (r.ingredients.length : ℚ)

/-- The result order of ingredient-driven matching: descending
`match_score`, ties broken by ascending recipe id. -/
def resOrder (a b : MatchResult) : Prop :=
  b.match_score < a.match_score
    ∨ (a.match_score = b.match_score ∧ a.recipe.id ≤ b.recipe.id)

instance : DecidableRel resOrder := fun a b =>
  inferInstanceAs (Decidable
    (b.match_score < a.match_score
      ∨ (a.match_score = b.match_score ∧ a.recipe.id ≤ b.recipe.id)))

instance : IsTrans MatchResult resOrder where
  trans _ _ _ hab hbc := by
    rcases hab with hab | ⟨hab, hab2⟩ <;> rcases hbc with hbc | ⟨hbc, hbc2⟩
    · exact Or.inl (lt_trans hbc hab)
    · exact Or.inl (hbc ▸ hab)
    · exact Or.inl (hab ▸ hbc)
    · exact Or.inr ⟨hab.trans hbc, le_trans hab2 hbc2⟩

instance : IsTotal MatchResult resOrder where
  total := by
    intro a b
    rcases lt_trichotomy a.match_score b.match_score with h | h | h
    · exact Or.inr (Or.inl h)
    · rcases Nat.le_total a.recipe.id b.recipe.id with h2 | h2
      · exact Or.inl (Or.inr ⟨h, h2⟩)
      · exact Or.inr (Or.inr ⟨h.symm, h2⟩)
    · exact Or.inl (Or.inl h)

/-- Modelled from the spec: ingredient-driven matching
(`POST /find-recipes`) — score every recipe by the fraction of its
required ingredients present in the input set, exclude recipes with zero
overlap, and order descending by `match_score`, ties broken by ascending
recipe id. -/
def findRecipes (corpus : List Recipe) (input : List String) : List MatchResult :=
  List.insertionSort resOrder
    (corpus.filterMap (fun r =>
      if matchCount input r = 0 then none else some ⟨r, matchScore input r⟩))

/-! ## Filter-driven search (spec §4.4) -/

/-- Modelled from the spec: the structured filter object accepted by
`POST /search-recipes`; a `none` field is an absent filter key.  The field
set mirrors the filter state assembled by `handleApplyFilters` in
`src/frontend/src/pages/Recipes.js`. -/
structure SearchFilters where
  query : Option String
  cuisine_type : Option String
  difficulty_level : Option String
  max_prep_time : Option Nat
  max_cook_time : Option Nat
  dietary_preferences : Option (List String)
  max_calories : Option Nat
  min_protein : Option Nat
  max_carbs : Option Nat
  max_fat : Option Nat
  max_sugar : Option Nat
  max_sodium : Option Nat
deriving DecidableEq, Repr

/-- An absent filter key passes every recipe; a present one applies its
predicate. -/
def optSat {α : Type} (o : Option α) (p : α → Bool) : Bool :=
  match o with
  | none => true
  | some v => p v

/-- ASCII lower-casing of one character. -/
def lowerChar (c : Char) : Char :=
  if 65 ≤ c.toNat ∧ c.toNat ≤ 90 then Char.ofNat (c.toNat + 32) else c

/-- Case-insensitive substring test over the lowered character lists. -/
def containsCI (hay needle : String) : Bool :=
  decide ((needle.toList.map lowerChar) <:+: (hay.toList.map lowerChar))

/-- The free-text query matches a recipe's title or description
(case-insensitive substring). -/
def textMatches (r : Recipe) (q : String) : Bool :=
  containsCI r.title q || containsCI r.description q

/-- Modelled from the spec: a recipe satisfies every supplied filter
(logical AND across filters); every numeric bound is inclusive. -/
def satisfiesFilters (f : SearchFilters) (r : Recipe) : Bool :=
  optSat f.query (fun q => textMatches r q) &&
  optSat f.cuisine_type (fun c => decide (r.cuisine_type = c)) &&
  optSat f.difficulty_level (fun d => decide (r.difficulty_level = d)) &&
  optSat f.max_prep_time (fun t => decide (r.prep_time ≤ t)) &&
  optSat f.max_cook_time (fun t => decide (r.cook_time ≤ t)) &&
  optSat f.dietary_preferences
    (fun ds => ds.all (fun d => decide (d ∈ r.dietary_tags))) &&
  optSat f.max_calories (fun b => decide (r.nutrition.calories ≤ b)) &&
  optSat f.min_protein (fun b => decide (b ≤ r.nutrition.protein)) &&
  optSat f.max_carbs (fun b => decide (r.nutrition.carbohydrates ≤ b)) &&
  optSat f.max_fat (fun b => decide (r.nutrition.fat ≤ b)) &&
  optSat f.max_sugar (fun b => decide (r.nutrition.sugar ≤ b)) &&
  optSat f.max_sodium (fun b => decide (r.nutrition.sodium ≤ b))

/-- Modelled from the spec: filter-driven search returns the subset of the
corpus satisfying every supplied constraint (pagination, which follows the
selection, is elided). -/
def searchRecipes (corpus : List Recipe) (f : SearchFilters) : List Recipe :=
  corpus.filter (fun r => satisfiesFilters f r)

/-- The filter constraints written out in the spec's words, for the
refinement statement of the search contract: each supplied filter key
constrains its own dimension (absent keys constrain nothing), and every
numeric bound is inclusive. -/
def meetsAllFilters (f : SearchFilters) (r : Recipe) : Prop :=
  (∀ q, f.query = some q → textMatches r q = true)
  ∧ (∀ c, f.cuisine_type = some c → r.cuisine_type = c)
  ∧ (∀ d, f.difficulty_level = some d → r.difficulty_level = d)
  ∧ (∀ t, f.max_prep_time = some t → r.prep_time ≤ t)
  ∧ (∀ t, f.max_cook_time = some t → r.cook_time ≤ t)
  ∧ (∀ ds, f.dietary_preferences = some ds → ∀ d ∈ ds, d ∈ r.dietary_tags)
  ∧ (∀ b, f.max_calories = some b → r.nutrition.calories ≤ b)
  ∧ (∀ b, f.min_protein = some b → b ≤ r.nutrition.protein)
  ∧ (∀ b, f.max_carbs = some b → r.nutrition.carbohydrates ≤ b)
  ∧ (∀ b, f.max_fat = some b → r.nutrition.fat ≤ b)
  ∧ (∀ b, f.max_sugar = some b → r.nutrition.sugar ≤ b)
  ∧ (∀ b, f.max_sodium = some b → r.nutrition.sodium ≤ b)

/-! ## Redux user slice (`src/unnamed/part_005`, `userSlice`) -/

namespace UserSlice

/-- The `preferences` object of the user profile. -/
structure Preferences where
  dietary : List String
  cuisine : List String
  difficulty : String
deriving DecidableEq, Repr

/-- The user `profile` object.  Favorites hold recipe ids; history entries
are modelled by recipe ids as well. -/
structure Profile where
  name : String
  email : String
  preferences : Preferences
  favorites : List Nat
  history : List Nat
deriving DecidableEq, Repr

/-- The `userSlice` state. -/
structure UserState where
  profile : Profile
  isAuthenticated : Bool
  loading : Bool
  error : Option String
deriving DecidableEq, Repr

/-- The slice's `initialState`. -/
def initialUserState : UserState :=
  { profile :=
      { name := ""
        email := ""
        preferences := { dietary := [], cuisine := [], difficulty := "Easy" }
        favorites := []
        history := [] }
    isAuthenticated := false
    loading := false
    error := none }

/-- A partial profile payload: the JS object spread
`{...state.profile, ...action.payload}` keeps a field unless the payload
supplies it, so each payload field is an `Option`. -/
structure ProfilePatch where
  name : Option String
  email : Option String
  preferences : Option Preferences
  favorites : Option (List Nat)
  history : Option (List Nat)
deriving DecidableEq, Repr

/-- A partial preferences payload for `updatePreferences`. -/
structure PreferencesPatch where
  dietary : Option (List String)
  cuisine : Option (List String)
  difficulty : Option String
deriving DecidableEq, Repr

/-- `setUserProfile`: merge the payload over the profile and mark the user
authenticated. -/
def setUserProfile (s : UserState) (p : ProfilePatch) : UserState :=
  { s with
    profile :=
      { name := p.name.getD s.profile.name
        email := p.email.getD s.profile.email
        preferences := p.preferences.getD s.profile.preferences
        favorites := p.favorites.getD s.profile.favorites
        history := p.history.getD s.profile.history }
    isAuthenticated := true }

/-- `updatePreferences`: merge the payload over the preferences object. -/
def updatePreferences (s : UserState) (p : PreferencesPatch) : UserState :=
  { s with
    profile :=
      { s.profile with
        preferences :=
          { dietary := p.dietary.getD s.profile.preferences.dietary
            cuisine := p.cuisine.getD s.profile.preferences.cuisine
            difficulty := p.difficulty.getD s.profile.preferences.difficulty } } }

/-- `addToFavorites`: push the id unless it is already present. -/
def addToFavorites (s : UserState) (id : Nat) : UserState :=
  if id ∈ s.profile.favorites then s
  else
    { s with
      profile := { s.profile with favorites := s.profile.favorites ++ [id] } }

/-- `removeFromFavorites`: drop every occurrence of the id. -/
def removeFromFavorites (s : UserState) (id : Nat) : UserState :=
  { s with
    profile :=
      { s.profile with
        favorites := s.profile.favorites.filter (fun x => x ≠ id) } }

/-- `addToHistory`: `unshift` the entry, then `slice(0, 20)` — keep only
the first 20 items. -/
def addToHistory (s : UserState) (e : Nat) : UserState :=
  { s with
    profile := { s.profile with history := (e :: s.profile.history).take 20 } }

/-- `clearHistory`. -/
def clearHistory (s : UserState) : UserState :=
  { s with profile := { s.profile with history := [] } }

/-- `logout`: reset the profile to its initial value and drop the
authentication flag. -/
def logout (s : UserState) : UserState :=
  { s with
    profile := initialUserState.profile
    isAuthenticated := false }

/-- `clearError`. -/
def clearError (s : UserState) : UserState :=
  { s with error := none }

/-- The actions of the user slice. -/
inductive UserAction where
  | setProfile (p : ProfilePatch)
  | updatePrefs (p : PreferencesPatch)
  | addFavorite (id : Nat)
  | removeFavorite (id : Nat)
  | addHistory (e : Nat)
  | clearHist
  | doLogout
  | clearErr
deriving DecidableEq, Repr

/-- The slice reducer: dispatch one action. -/
def userStep (s : UserState) : UserAction → UserState
  | UserAction.setProfile p => setUserProfile s p
  | UserAction.updatePrefs p => updatePreferences s p
  | UserAction.addFavorite id => addToFavorites s id
  | UserAction.removeFavorite id => removeFromFavorites s id
  | UserAction.addHistory e => addToHistory s e
  | UserAction.clearHist => clearHistory s
  | UserAction.doLogout => logout s
  | UserAction.clearErr => clearError s

/-- Dispatch a sequence of actions starting from the initial state. -/
def userRun (acts : List UserAction) : UserState :=
  acts.foldl userStep initialUserState

/-- A `setUserProfile` payload respects the history bound when the history
it supplies (if any) has at most 20 entries; every other action always
does. -/
def patchBounded : UserAction → Prop
  | UserAction.setProfile p => ∀ l, p.history = some l → l.length ≤ 20
  | _ => True

end UserSlice

/-! ## Redux ingredient slice (`src/unnamed/part_004`, `ingredientSlice`) -/

namespace IngredientSlice

/-- One entry of the detected-ingredient list shown by the UI:
`{name, confidence}`. -/
structure DetectedIngredient where
  name : String
  confidence : ℚ
deriving DecidableEq, Repr

/-- The `ingredientSlice` state.  `detectedIngredients` and
`uploadedImage` are set verbatim from response fields that may be absent,
so they are `Option`s (`none` models JS `undefined`/`null`). -/
structure IngredientsState where
  detectedIngredients : Option (List DetectedIngredient)
  uploadedImage : Option String
  matchedRecipes : List MatchResult
  loading : Bool
  error : Option String
deriving DecidableEq, Repr

/-- The slice's `initialState`. -/
def initialIngredientsState : IngredientsState :=
  { detectedIngredients := some []
    uploadedImage := none
    matchedRecipes := []
    loading := false
    error := none }

/-- The JSON body of a `POST /process-image` response as the reducer sees
it: every key may be absent. -/
structure ProcessImagePayload where
  ocr_text : Option String
  ingredients : Option (List DetectedIngredient)
  matching_recipes : Option (List MatchResult)
  database_status : Option String
  ai_generated_recipes : Option (List MatchResult)
  database_matching_recipes : Option (List MatchResult)
deriving DecidableEq, Repr

/-- `clearIngredients`: reset the detected list, the uploaded image and the
matched recipes. -/
def clearIngredients (s : IngredientsState) : IngredientsState :=
  { s with
    detectedIngredients := some []
    uploadedImage := none
    matchedRecipes := [] }

/-- `clearError`. -/
def clearError (s : IngredientsState) : IngredientsState :=
  { s with error := none }

/-- The `processImage.fulfilled` extra reducer: store the response's
`ingredients` and `ocr_text`, and set `matchedRecipes` to the
concatenation of the `ai_generated_recipes` and
`database_matching_recipes` keys (each treated as empty when absent —
the JS `|| []`). -/
def processImageFulfilled (s : IngredientsState) (p : ProcessImagePayload) :
    IngredientsState :=
  { s with
    loading := false
    detectedIngredients := p.ingredients
    uploadedImage := p.ocr_text
    matchedRecipes :=
      p.ai_generated_recipes.getD [] ++ p.database_matching_recipes.getD [] }

/-- The `findRecipes.fulfilled` extra reducer: store the response's
`recipes` key (empty when absent). -/
def findRecipesFulfilled (s : IngredientsState)
    (recipes : Option (List MatchResult)) : IngredientsState :=
  { s with loading := false, matchedRecipes := recipes.getD [] }

end IngredientSlice

/-- Modelled from the spec: the success body of `POST /process-image`
(§6) — `{ocr_text, ingredients, matching_recipes, database_status}`. -/
structure ProcessImageResponse where
  ocr_text : String
  ingredients : List IngredientSlice.DetectedIngredient
  matching_recipes : List MatchResult
  database_status : String
deriving DecidableEq, Repr

/-- The payload the Redux reducer receives when the server responds with
exactly the spec's §6 body: the four contract keys are present, any other
key is absent. -/
def responsePayload (r : ProcessImageResponse) :
    IngredientSlice.ProcessImagePayload :=
  { ocr_text := some r.ocr_text
    ingredients := some r.ingredients
    matching_recipes := some r.matching_recipes
    database_status := some r.database_status
    ai_generated_recipes := none
    database_matching_recipes := none }

/-! ## Sample data for concrete witnesses -/

/-- The spec's `find-recipes` scenario recipe: requires
`["tomato", "onion", "garlic", "oil"]`. -/
def recipeTOGO : Recipe :=
  { id := 1
    title := "Tomato Onion Stew"
    description := "A simple stew"
    cuisine_type := "indian"
    difficulty_level := "easy"
    prep_time := 10
    cook_time := 20
    servings := 2
    ingredients := ["tomato", "onion", "garlic", "oil"]
    dietary_tags := ["vegetarian"]
    nutrition :=
      { calories := 300, protein := 8, carbohydrates := 30, fat := 10
        fiber := 5, sugar := 6, sodium := 400 } }

/-! ## Merge lemmas (deduplication of matches) -/

/-- A list already holds a match for `y`'s canonical ingredient at
confidence at least `y`'s. -/
def dominatedBy (l : List IngredientMatch) (y : IngredientMatch) : Prop :=
  ∃ x ∈ l, x.canonical_name = y.canonical_name ∧ y.confidence ≤ x.confidence

theorem insertMatch_map_name (acc : List IngredientMatch) (m : IngredientMatch) :
    (insertMatch acc m).map IngredientMatch.canonical_name
      = if m.canonical_name ∈ acc.map IngredientMatch.canonical_name
        then acc.map IngredientMatch.canonical_name
        else acc.map IngredientMatch.canonical_name ++ [m.canonical_name] := by
  induction acc with
  | nil => simp [insertMatch]
  | cons x xs ih =>
    by_cases h : x.canonical_name = m.canonical_name
    · by_cases hc : x.confidence < m.confidence <;> simp [insertMatch, h, hc]
    · simp only [insertMatch, if_neg h, List.map_cons, ih]
      by_cases hm : m.canonical_name ∈ xs.map IngredientMatch.canonical_name
      · simp [hm, h, Ne.symm h]
      · simp [hm, h, Ne.symm h]

theorem mergeAux_map_nodup (ms : List IngredientMatch) :
    ∀ acc : List IngredientMatch,
      (acc.map IngredientMatch.canonical_name).Nodup →
      ((ms.foldl insertMatch acc).map IngredientMatch.canonical_name).Nodup := by
  induction ms with
  | nil => intro acc h; simpa using h
  | cons m ms ih =>
    intro acc h
    simp only [List.foldl_cons]
    apply ih
    rw [insertMatch_map_name]
    by_cases hm : m.canonical_name ∈ acc.map IngredientMatch.canonical_name
    · simpa [hm] using h
    · simp [hm, List.nodup_append, h]

theorem dominatedBy_insertMatch_self (acc : List IngredientMatch)
    (m : IngredientMatch) : dominatedBy (insertMatch acc m) m := by
  induction acc with
  | nil => exact ⟨m, by simp [insertMatch], rfl, le_refl _⟩
  | cons x xs ih =>
    by_cases h : x.canonical_name = m.canonical_name
    · by_cases hc : x.confidence < m.confidence
      · exact ⟨m, by simp [insertMatch, h, hc], rfl, le_refl _⟩
      · exact ⟨x, by simp [insertMatch, h, hc], h, le_of_not_lt hc⟩
    · obtain ⟨z, hz, hn, hcle⟩ := ih
      refine ⟨z, ?_, hn, hcle⟩
      simp only [insertMatch, if_neg h, List.mem_cons]
      exact Or.inr hz

theorem dominatedBy_insertMatch (acc : List IngredientMatch)
    (m y : IngredientMatch) (h : dominatedBy acc y) :
    dominatedBy (insertMatch acc m) y := by
  induction acc with
  | nil => simp [dominatedBy] at h
  | cons x xs ih =>
    obtain ⟨z, hz, hn, hc⟩ := h
    rcases List.mem_cons.mp hz with rfl | hz2
    · by_cases hxm : z.canonical_name = m.canonical_name
      · by_cases hlt : z.confidence < m.confidence
        · exact ⟨m, by simp [insertMatch, hxm, hlt], hxm ▸ hn,
            le_trans hc (le_of_lt hlt)⟩
        · exact ⟨z, by simp [insertMatch, hxm, hlt], hn, hc⟩
      · refine ⟨z, ?_, hn, hc⟩
        simp [insertMatch, hxm]
    · by_cases hxm : x.canonical_name = m.canonical_name
      · refine ⟨z, ?_, hn, hc⟩
        by_cases hlt : x.confidence < m.confidence <;>
          simp only [insertMatch, if_pos hxm, hlt, if_true, if_false,
            List.mem_cons] <;> exact Or.inr hz2
      · obtain ⟨w, hw, hwn, hwc⟩ := ih ⟨z, hz2, hn, hc⟩
        refine ⟨w, ?_, hwn, hwc⟩
        simp only [insertMatch, if_neg hxm, List.mem_cons]
        exact Or.inr hw

theorem mem_insertMatch (acc : List IngredientMatch) (m x : IngredientMatch)
    (h : x ∈ insertMatch acc m) : x ∈ acc ∨ x = m := by
  induction acc with
  | nil => simpa [insertMatch] using h
  | cons y ys ih =>
    by_cases hy : y.canonical_name = m.canonical_name
    · by_cases hc : y.confidence < m.confidence
      · simp only [insertMatch, if_pos hy, if_pos hc, List.mem_cons] at h
        rcases h with rfl | h
        · exact Or.inr rfl
        · exact Or.inl (List.mem_cons_of_mem _ h)
      · simp only [insertMatch, if_pos hy, if_neg hc, List.mem_cons] at h
        rcases h with rfl | h
        · exact Or.inl (List.mem_cons_self _ _)
        · exact Or.inl (List.mem_cons_of_mem _ h)
    · simp only [insertMatch, if_neg hy, List.mem_cons] at h
      rcases h with rfl | h
      · exact Or.inl (List.mem_cons_self _ _)
      · rcases ih h with h2 | h2
        · exact Or.inl (List.mem_cons_of_mem _ h2)
        · exact Or.inr h2

theorem dominatedBy_foldl (ms : List IngredientMatch) :
    ∀ acc y, dominatedBy acc y →
      dominatedBy (ms.foldl insertMatch acc) y := by
  induction ms with
  | nil => intro acc y h; simpa using h
  | cons m ms ih =>
    intro acc y h
    exact ih _ y (dominatedBy_insertMatch acc m y h)

theorem dominatedBy_foldl_mem (ms : List IngredientMatch) :
    ∀ acc, ∀ y ∈ ms, dominatedBy (ms.foldl insertMatch acc) y := by
  induction ms with
  | nil => intro acc y h; simp at h
  | cons m ms ih =>
    intro acc y hy
    rcases List.mem_cons.mp hy with rfl | hy2
    · exact dominatedBy_foldl ms _ y (dominatedBy_insertMatch_self acc y)
    · exact ih _ y hy2

theorem mem_foldl_insertMatch (ms : List IngredientMatch) :
    ∀ acc x, x ∈ ms.foldl insertMatch acc → x ∈ acc ∨ x ∈ ms := by
  induction ms with
  | nil => intro acc x h; exact Or.inl (by simpa using h)
  | cons m ms ih =>
    intro acc x h
    rcases ih _ x h with h2 | h2
    · rcases mem_insertMatch acc m x h2 with h3 | h3
      · exact Or.inl h3
      · exact Or.inr (h3 ▸ List.mem_cons_self _ _)
    · exact Or.inr (List.mem_cons_of_mem _ h2)

/-! ## Matcher and filter lemmas -/

theorem findRecipes_mem_iff (corpus : List Recipe) (input : List String)
    (mr : MatchResult) :
    mr ∈ findRecipes corpus input
      ↔ mr.recipe ∈ corpus ∧ matchCount input mr.recipe ≠ 0
        ∧ mr.match_score = matchScore input mr.recipe := by
  unfold findRecipes
  rw [(List.perm_insertionSort resOrder _).mem_iff, List.mem_filterMap]
  constructor
  · rintro ⟨r, hr, hf⟩
    by_cases h : matchCount input r = 0
    · simp [h] at hf
    · rw [if_neg h] at hf
      rcases Option.some.inj hf with rfl
      exact ⟨hr, h, rfl⟩
  · rintro ⟨hmem, hcount, hscore⟩
    refine ⟨mr.recipe, hmem, ?_⟩
    rw [if_neg hcount]
    cases mr with
    | mk r s =>
      simp only at hscore
      rw [hscore]

theorem fallbackConfidence_bounds (img : RawImage) :
    60 / 100 ≤ fallbackConfidence img ∧ fallbackConfidence img ≤ 75 / 100 := by
  obtain ⟨k, hk15, hkeq⟩ : ∃ k, k ≤ 15 ∧ imageHash img % 16 = k :=
    ⟨_, Nat.le_of_lt_succ (Nat.mod_lt _ (by norm_num)), rfl⟩
  unfold fallbackConfidence
  rw [hkeq, Rat.mkRat_eq_div]
  have h1 : (((60 + k : ℕ) : ℤ) : ℚ) = 60 + (k : ℚ) := by push_cast; ring
  have h2 : ((100 : ℕ) : ℚ) = 100 := by norm_num
  rw [h1, h2]
  have hk15q : (k : ℚ) ≤ 15 := by exact_mod_cast hk15
  have hk0 : (0 : ℚ) ≤ (k : ℚ) := by positivity
  constructor <;> linarith

theorem optSat_eq_true {α : Type} (o : Option α) (p : α → Bool) :
    optSat o p = true ↔ ∀ v, o = some v → p v = true := by
  cases o <;> simp [optSat]

theorem satisfiesFilters_iff (f : SearchFilters) (r : Recipe) :
    satisfiesFilters f r = true ↔ meetsAllFilters f r := by
  unfold satisfiesFilters meetsAllFilters
  simp only [Bool.and_eq_true, optSat_eq_true, decide_eq_true_eq,
    List.all_eq_true, and_assoc]

/-! ## Claim theorems -/

/-- C1: the ingredient resolver evaluates the tiers in the fixed priority
order Variation, Direct, Fuzzy, Keyword (Fallback being image-level,
`pipeline`), and for every candidate token the first tier that succeeds
determines the token's `IngredientMatch` and its confidence (Variation
0.95, Direct 0.90, Fuzzy 0.75, Keyword 0.80); in particular a token that
matches both the Direct and the Fuzzy tier receives confidence 0.90,
never 0.75, and Keyword's 0.80 exceeds Fuzzy's 0.75. -/
theorem cascade_priority (db : ResolverDB) (tok : String) :
    (∀ c, variationMatch db tok = some c →
      resolveToken db tok = some ⟨c, 95 / 100, Tier.Variation, tok⟩)
    ∧ (variationMatch db tok = none →
      ∀ c, directMatch db tok = some c →
        resolveToken db tok = some ⟨c, 90 / 100, Tier.Direct, tok⟩)
    ∧ (variationMatch db tok = none → directMatch db tok = none →
      ∀ c, fuzzyMatch db tok = some c →
        resolveToken db tok = some ⟨c, 75 / 100, Tier.Fuzzy, tok⟩)
    ∧ (variationMatch db tok = none → directMatch db tok = none →
      fuzzyMatch db tok = none →
      ∀ c, keywordMatch db tok = some c →
        resolveToken db tok = some ⟨c, 80 / 100, Tier.Keyword, tok⟩)
    ∧ tierConfidence Tier.Fuzzy < tierConfidence Tier.Keyword := by
  have e1 : tierConfidence Tier.Variation = 95 / 100 := by
    rw [tierConfidence, Rat.mkRat_eq_div]; norm_num
  have e2 : tierConfidence Tier.Direct = 90 / 100 := by
    rw [tierConfidence, Rat.mkRat_eq_div]; norm_num
  have e3 : tierConfidence Tier.Fuzzy = 75 / 100 := by
    rw [tierConfidence, Rat.mkRat_eq_div]; norm_num
  have e4 : tierConfidence Tier.Keyword = 80 / 100 := by
    rw [tierConfidence, Rat.mkRat_eq_div]; norm_num
  refine ⟨?_, ?_, ?_, ?_, by decide⟩
  · intro c h
    simp [resolveToken, h, e1]
  · intro hv c h
    simp [resolveToken, hv, h, e2]
  · intro hv hd c h
    simp [resolveToken, hv, hd, h, e3]
  · intro hv hd hf c h
    simp [resolveToken, hv, hd, hf, h, e4]

/-- Witness for C1 at the sample database: the token `"chips"` matches
both the Direct and the Fuzzy tier, and resolves at Direct with
confidence 0.90. -/
theorem cascade_priority_witness :
    resolveToken sampleDB "chips"
        = some ⟨"chips", 90 / 100, Tier.Direct, "chips"⟩
    ∧ fuzzyMatch sampleDB "chips" = some "chips" :=
  ⟨(cascade_priority sampleDB "chips").2.1 (by decide) "chips" (by decide),
   by decide⟩

/-- C2: ingredient-driven matching scores every returned recipe by the
number of its required ingredients present in the input set divided by
its total ingredient count, excludes recipes with zero overlap (and no
other recipe of the corpus), and returns the results ordered by
descending `match_score` with ties broken by ascending recipe id. -/
theorem findRecipes_spec (corpus : List Recipe) (input : List String) :
    (∀ mr ∈ findRecipes corpus input,
      mr.recipe ∈ corpus
      ∧ mr.match_score
          = (matchCount input mr.recipe : ℚ) / (mr.recipe.ingredients.length : ℚ)
      ∧ matchCount input mr.recipe ≠ 0)
    ∧ (∀ r ∈ corpus, matchCount input r ≠ 0 →
      ∃ mr ∈ findRecipes corpus input,
        mr.recipe = r ∧ mr.match_score = matchScore input r)
    ∧ (findRecipes corpus input).Sorted resOrder := by
  refine ⟨?_, ?_, List.sorted_insertionSort resOrder _⟩
  · intro mr hmr
    obtain ⟨h1, h2, h3⟩ := (findRecipes_mem_iff corpus input mr).mp hmr
    exact ⟨h1, by rw [h3, matchScore], h2⟩
  · intro r hr hcount
    exact ⟨⟨r, matchScore input r⟩,
      (findRecipes_mem_iff corpus input _).mpr ⟨hr, hcount, rfl⟩, rfl, rfl⟩

/-- Witness for C2: the spec's scenario — a recipe requiring
`["tomato", "onion", "garlic", "oil"]` matched against
`["tomato", "onion"]` is returned with `match_score = 1/2`. -/
theorem findRecipes_spec_witness :
    ∃ mr ∈ findRecipes [recipeTOGO] ["tomato", "onion"],
      mr.recipe = recipeTOGO ∧ mr.match_score = 1 / 2 := by
  obtain ⟨mr, hm, hr, hs⟩ :=
    (findRecipes_spec [recipeTOGO] ["tomato", "onion"]).2.1 recipeTOGO
      (by simp) (by decide)
  have hc : matchCount ["tomato", "onion"] recipeTOGO = 2 := by decide
  have hl : recipeTOGO.ingredients.length = 4 := by decide
  refine ⟨mr, hm, hr, ?_⟩
  rw [hs, matchScore, hc, hl]
  norm_num

/-- C3: the resolver output holds at most one `IngredientMatch` per
canonical ingredient; for every candidate match produced by some token,
the output's match for that ingredient has at least that candidate's
confidence (so no lower tier ever replaces a higher tier's match); and
every output entry is one of the candidates. -/
theorem resolver_dedup (db : ResolverDB) (toks : List String) :
    ((resolveTokens db toks).map IngredientMatch.canonical_name).Nodup
    ∧ (∀ m ∈ toks.filterMap (resolveToken db),
      ∃ x ∈ resolveTokens db toks,
        x.canonical_name = m.canonical_name ∧ m.confidence ≤ x.confidence)
    ∧ (∀ x ∈ resolveTokens db toks, x ∈ toks.filterMap (resolveToken db)) := by
  refine ⟨?_, ?_, ?_⟩
  · exact mergeAux_map_nodup _ [] (by simp)
  · intro m hm
    exact dominatedBy_foldl_mem _ [] m hm
  · intro x hx
    rcases mem_foldl_insertMatch _ [] x hx with h | h
    · simp at h
    · exact h

/-- Witness for C3 at the sample database: `"lays"` (Variation, 0.95) and
`"chips"` (Direct, 0.90) both resolve to the canonical ingredient
`"chips"`; the merged output names `"chips"` only once, at confidence at
least the Direct tier's. -/
theorem resolver_dedup_witness :
    ((resolveTokens sampleDB ["lays", "chips"]).map
        IngredientMatch.canonical_name).Nodup
    ∧ ∃ x ∈ resolveTokens sampleDB ["lays", "chips"],
        x.canonical_name = "chips" ∧ tierConfidence Tier.Direct ≤ x.confidence := by
  refine ⟨(resolver_dedup sampleDB ["lays", "chips"]).1, ?_⟩
  obtain ⟨x, hx, hn, hc⟩ :=
    (resolver_dedup sampleDB ["lays", "chips"]).2.1
      ⟨"chips", tierConfidence Tier.Direct, Tier.Direct, "chips"⟩ (by decide)
  exact ⟨x, hx, hn, hc⟩

/-- C4: the pipeline aborts with `MalformedImage` exactly when image
decoding fails (and then produces no results); every successful run
returns at least one `IngredientMatch`; and when no token of the text
matches tiers 1–4 (including the no-text case) the Fallback tier
supplies a single match with confidence in [0.60, 0.75]. -/
theorem pipeline_total (db : ResolverDB)
    (decode : RawImage → Option (List String)) (img : RawImage) :
    (pipeline db decode img = Except.error PipelineError.MalformedImage
      ↔ decode img = none)
    ∧ (∀ ms, pipeline db decode img = Except.ok ms → ms ≠ [])
    ∧ (∀ toks, decode img = some toks → resolveTokens db toks = [] →
      pipeline db decode img = Except.ok [fallbackMatch db img]
      ∧ 60 / 100 ≤ (fallbackMatch db img).confidence
      ∧ (fallbackMatch db img).confidence ≤ 75 / 100) := by
  refine ⟨?_, ?_, ?_⟩
  · constructor
    · intro h
      cases hdec : decode img with
      | none => rfl
      | some toks =>
        exfalso
        cases hres : resolveTokens db toks with
        | nil => simp [pipeline, hdec, hres] at h
        | cons a l => simp [pipeline, hdec, hres] at h
    · intro h
      simp [pipeline, h]
  · intro ms hok
    cases hdec : decode img with
    | none => simp [pipeline, hdec] at hok
    | some toks =>
      cases hres : resolveTokens db toks with
      | nil =>
        simp only [pipeline, hdec, hres] at hok
        rcases Except.ok.inj hok with rfl
        simp
      | cons a l =>
        simp only [pipeline, hdec, hres] at hok
        rcases Except.ok.inj hok with rfl
        simp
  · intro toks hdec hres
    refine ⟨?_, (fallbackConfidence_bounds img).1, (fallbackConfidence_bounds img).2⟩
    simp [pipeline, hdec, hres]

/-- Witness for C4: a decodable two-byte image whose decode yields no
text reaches the Fallback tier, returning a single match with confidence
inside [0.60, 0.75]. -/
theorem pipeline_total_witness :
    pipeline sampleDB blankDecode ⟨[255, 255], "image/png"⟩
        = Except.ok [fallbackMatch sampleDB ⟨[255, 255], "image/png"⟩]
    ∧ 60 / 100 ≤ (fallbackMatch sampleDB ⟨[255, 255], "image/png"⟩).confidence
    ∧ (fallbackMatch sampleDB ⟨[255, 255], "image/png"⟩).confidence ≤ 75 / 100 :=
  (pipeline_total sampleDB blankDecode ⟨[255, 255], "image/png"⟩).2.2 [] rfl rfl

/-- C5: Fallback-tier selection is a deterministic function of the image
bytes — two images with identical content yield the identical fallback
match (name and confidence), whatever their declared MIME types. -/
theorem fallback_deterministic (db : ResolverDB) (i1 i2 : RawImage)
    (h : i1.bytes = i2.bytes) : fallbackMatch db i1 = fallbackMatch db i2 := by
  have hh : imageHash i1 = imageHash i2 := by
    unfold imageHash
    rw [h]
  unfold fallbackMatch fallbackName fallbackConfidence
  rw [hh]

/-- Witness for C5: two images with the same bytes but different MIME
types get the same fallback match. -/
theorem fallback_deterministic_witness :
    fallbackMatch sampleDB ⟨[9, 9, 9], "image/png"⟩
      = fallbackMatch sampleDB ⟨[9, 9, 9], "image/jpeg"⟩ :=
  fallback_deterministic sampleDB ⟨[9, 9, 9], "image/png"⟩
    ⟨[9, 9, 9], "image/jpeg"⟩ rfl

/-- C6: filter-driven search returns exactly the recipes satisfying every
supplied filter (logical AND across filters); an absent filter key
imposes no constraint on its dimension, and every numeric bound is
inclusive — all spelled out by `meetsAllFilters`. -/
theorem searchRecipes_spec (corpus : List Recipe) (f : SearchFilters)
    (r : Recipe) :
    r ∈ searchRecipes corpus f ↔ r ∈ corpus ∧ meetsAllFilters f r := by
  rw [searchRecipes, List.mem_filter, satisfiesFilters_iff]

/-- A filter with every key supplied, each bound met exactly by
`recipeTOGO` (calories 300 = max, protein 8 = min, and so on), to
exhibit inclusive bounds. -/
def filtersExact : SearchFilters :=
  { query := some "stew"
    cuisine_type := some "indian"
    difficulty_level := some "easy"
    max_prep_time := some 10
    max_cook_time := some 20
    dietary_preferences := some ["vegetarian"]
    max_calories := some 300
    min_protein := some 8
    max_carbs := some 30
    max_fat := some 10
    max_sugar := some 6
    max_sodium := some 400 }

/-- Witness for C6: `recipeTOGO` meets every bound of `filtersExact` with
equality and is returned by the search. -/
theorem searchRecipes_spec_witness :
    recipeTOGO ∈ searchRecipes [recipeTOGO] filtersExact := by
  refine (searchRecipes_spec [recipeTOGO] filtersExact recipeTOGO).mpr
    ⟨by simp, ?_⟩
  refine ⟨?_, ?_, ?_, ?_, ?_, ?_, ?_, ?_, ?_, ?_, ?_, ?_⟩ <;>
    (intro v hv; rcases Option.some.inj hv with rfl) <;> decide

/-! ## C7: the `/process-image` contract against its consumers -/

/-- A sample spec-shaped `/process-image` response whose
`matching_recipes` list is non-empty. -/
def sampleResponse : ProcessImageResponse :=
  { ocr_text := "tomato onion"
    ingredients := [⟨"tomato", mkRat 90 100⟩]
    matching_recipes := [⟨recipeTOGO, mkRat 50 100⟩]
    database_status := "connected" }

/-- C7 counterexample: when the server responds with exactly the spec's
§6 body, the `processImage.fulfilled` reducer of `ingredientSlice`
(`src/unnamed/part_004`) stores an empty `matchedRecipes` even though the
response's `matching_recipes` is non-empty: that presentation layer does
not obtain the matched recipes from the `matching_recipes` key. -/
theorem processImage_ignores_matching_recipes :
    sampleResponse.matching_recipes = [⟨recipeTOGO, mkRat 50 100⟩]
    ∧ (IngredientSlice.processImageFulfilled
        IngredientSlice.initialIngredientsState
        (responsePayload sampleResponse)).matchedRecipes = [] :=
  ⟨rfl, rfl⟩

/-- C7 amended: a successful `/process-image` response carries
`ocr_text`, `ingredients`, `matching_recipes` and `database_status`
(`ProcessImageResponse`), and the backend-frontend `App.jsx` reads
`matching_recipes`; but the Redux `processImage.fulfilled` reducer sets
`matchedRecipes` to `ai_generated_recipes ++ database_matching_recipes`
(each key treated as empty when absent) and ignores `matching_recipes`
entirely. -/
theorem processImage_fulfilled_spec (s : IngredientSlice.IngredientsState)
    (p : IngredientSlice.ProcessImagePayload) :
    (IngredientSlice.processImageFulfilled s p).matchedRecipes
        = p.ai_generated_recipes.getD [] ++ p.database_matching_recipes.getD []
    ∧ (IngredientSlice.processImageFulfilled s p).detectedIngredients
        = p.ingredients
    ∧ (IngredientSlice.processImageFulfilled s p).uploadedImage = p.ocr_text
    ∧ (IngredientSlice.processImageFulfilled s p).loading = false
    ∧ (IngredientSlice.processImageFulfilled s p).error = s.error
    ∧ ∀ l, IngredientSlice.processImageFulfilled s
        { p with matching_recipes := l }
        = IngredientSlice.processImageFulfilled s p :=
  ⟨rfl, rfl, rfl, rfl, rfl, fun _ => rfl⟩

/-! ## C8–C10: Redux slice reducers -/

/-- C8: `addToFavorites` keeps favorites duplicate-free and is
idempotent — an id already in `profile.favorites` leaves the state
unchanged, dispatching twice equals dispatching once, and a
duplicate-free favorites list stays duplicate-free. -/
theorem addToFavorites_idempotent (s : UserSlice.UserState) (id : Nat) :
    (id ∈ s.profile.favorites → UserSlice.addToFavorites s id = s)
    ∧ UserSlice.addToFavorites (UserSlice.addToFavorites s id) id
        = UserSlice.addToFavorites s id
    ∧ (s.profile.favorites.Nodup →
      ((UserSlice.addToFavorites s id).profile.favorites).Nodup) := by
  refine ⟨fun h => by simp [UserSlice.addToFavorites, h], ?_, ?_⟩
  · by_cases h : id ∈ s.profile.favorites
    · simp [UserSlice.addToFavorites, h]
    · simp [UserSlice.addToFavorites, h]
  · intro hnd
    by_cases h : id ∈ s.profile.favorites
    · simpa [UserSlice.addToFavorites, h] using hnd
    · simp [UserSlice.addToFavorites, h, List.nodup_append, hnd]

/-- A user state whose favorites already contain recipe id 5. -/
def userStateFav5 : UserSlice.UserState :=
  { UserSlice.initialUserState with
    profile := { UserSlice.initialUserState.profile with favorites := [5] } }

/-- Witness for C8 at a state already holding id 5. -/
theorem addToFavorites_idempotent_witness :
    UserSlice.addToFavorites userStateFav5 5 = userStateFav5
    ∧ UserSlice.addToFavorites (UserSlice.addToFavorites userStateFav5 5) 5
        = UserSlice.addToFavorites userStateFav5 5
    ∧ ((UserSlice.addToFavorites userStateFav5 5).profile.favorites).Nodup :=
  ⟨(addToFavorites_idempotent userStateFav5 5).1 (by decide),
   (addToFavorites_idempotent userStateFav5 5).2.1,
   (addToFavorites_idempotent userStateFav5 5).2.2 (by decide)⟩

/-- A `setUserProfile` payload carrying a 21-entry history. -/
def historyPatch21 : UserSlice.ProfilePatch :=
  { name := none
    email := none
    preferences := none
    favorites := none
    history := some (List.range 21) }

/-- C9 counterexample: a single `setUserProfile` action — a `userSlice`
action — whose payload carries a 21-entry history leaves
`profile.history` with 21 entries: the ≤ 20 bound does not survive
arbitrary action sequences. -/
theorem history_bound_counterexample :
    20 < (UserSlice.userRun
      [UserSlice.UserAction.setProfile historyPatch21]).profile.history.length := by
  decide

theorem userStep_history_bound (s : UserSlice.UserState)
    (a : UserSlice.UserAction) (hp : UserSlice.patchBounded a)
    (hs : s.profile.history.length ≤ 20) :
    (UserSlice.userStep s a).profile.history.length ≤ 20 := by
  cases a with
  | setProfile p =>
    cases hl : p.history with
    | none =>
      simpa [UserSlice.userStep, UserSlice.setUserProfile, hl] using hs
    | some l =>
      simpa [UserSlice.userStep, UserSlice.setUserProfile, hl] using hp l hl
  | updatePrefs p =>
    simpa [UserSlice.userStep, UserSlice.updatePreferences] using hs
  | addFavorite id =>
    by_cases h : id ∈ s.profile.favorites <;>
      simpa [UserSlice.userStep, UserSlice.addToFavorites, h] using hs
  | removeFavorite id =>
    simpa [UserSlice.userStep, UserSlice.removeFromFavorites] using hs
  | addHistory e =>
    simp only [UserSlice.userStep, UserSlice.addToHistory]
    exact List.length_take_le 20 (e :: s.profile.history)
  | clearHist => simp [UserSlice.userStep, UserSlice.clearHistory]
  | doLogout =>
    simp [UserSlice.userStep, UserSlice.logout, UserSlice.initialUserState]
  | clearErr => simpa [UserSlice.userStep, UserSlice.clearError] using hs

theorem foldl_history_bound (acts : List UserSlice.UserAction) :
    ∀ s : UserSlice.UserState,
      (∀ a ∈ acts, UserSlice.patchBounded a) →
      s.profile.history.length ≤ 20 →
      (acts.foldl UserSlice.userStep s).profile.history.length ≤ 20 := by
  induction acts with
  | nil => intro s _ hs; simpa using hs
  | cons a as ih =>
    intro s hacts hs
    exact ih _ (fun b hb => hacts b (List.mem_cons_of_mem _ hb))
      (userStep_history_bound s a (hacts a (List.mem_cons_self _ _)) hs)

/-- C9 amended: provided every `setUserProfile` payload in the sequence
supplies a history of at most 20 entries (or none), `profile.history`
stays bounded by 20 from the initial state; `addToHistory` places the
new entry at the front, and at the 20-entry bound it discards exactly
the oldest (last) entry. -/
theorem history_bounded (acts : List UserSlice.UserAction)
    (s : UserSlice.UserState) (e : Nat)
    (hacts : ∀ a ∈ acts, UserSlice.patchBounded a)
    (hs : s.profile.history.length = 20) :
    (UserSlice.userRun acts).profile.history.length ≤ 20
    ∧ (UserSlice.addToHistory s e).profile.history.head? = some e
    ∧ (UserSlice.addToHistory s e).profile.history
        = e :: s.profile.history.dropLast := by
  refine ⟨foldl_history_bound acts UserSlice.initialUserState hacts (by decide),
    ?_, ?_⟩
  · show ((e :: s.profile.history).take 20).head? = some e
    rw [show (20 : ℕ) = 19 + 1 from rfl, List.take_succ_cons]
    rfl
  · show (e :: s.profile.history).take 20 = e :: s.profile.history.dropLast
    rw [show (20 : ℕ) = 19 + 1 from rfl, List.take_succ_cons,
      List.dropLast_eq_take, hs]

/-- A user state whose history already holds 20 entries. -/
def userStateHist20 : UserSlice.UserState :=
  { UserSlice.initialUserState with
    profile :=
      { UserSlice.initialUserState.profile with history := List.range 20 } }

/-- Witness for C9 at a bounded action sequence and a full history. -/
theorem history_bounded_witness :
    (UserSlice.userRun
        [UserSlice.UserAction.addHistory 1,
         UserSlice.UserAction.addHistory 2]).profile.history.length ≤ 20
    ∧ (UserSlice.addToHistory userStateHist20 99).profile.history.head? = some 99
    ∧ (UserSlice.addToHistory userStateHist20 99).profile.history
        = 99 :: userStateHist20.profile.history.dropLast :=
  history_bounded
    [UserSlice.UserAction.addHistory 1, UserSlice.UserAction.addHistory 2]
    userStateHist20 99
    (by intro a ha; rcases List.mem_cons.mp ha with rfl | hb; · trivial
        rcases List.mem_cons.mp hb with rfl | hc; · trivial
        simp at hc)
    (by decide)

/-- C10: `clearIngredients` resets exactly `detectedIngredients` (to the
empty list), `uploadedImage` (to null) and `matchedRecipes` (to the
empty list), leaving `loading` and `error` unchanged, from every
starting state. -/
theorem clearIngredients_frame (s : IngredientSlice.IngredientsState) :
    (IngredientSlice.clearIngredients s).detectedIngredients = some []
    ∧ (IngredientSlice.clearIngredients s).uploadedImage = none
    ∧ (IngredientSlice.clearIngredients s).matchedRecipes = []
    ∧ (IngredientSlice.clearIngredients s).loading = s.loading
    ∧ (IngredientSlice.clearIngredients s).error = s.error :=
  ⟨rfl, rfl, rfl, rfl, rfl⟩
